import Mathlib

/-!
Verification development for the STMPO After Effects orchestrator
(`DeadlineCloudSubmitter_Assets/JobTemplate/scripts/stmpo_wrapper.py`).

The Python source is shallowly embedded: Python `int` becomes `Int`
(Python integers are unbounded, and Python `//` / `%` are floor
division and sign-of-divisor remainder, i.e. `Int.fdiv` / `Int.fmod`);
Python floats that only ever carry exact configuration quantities
(RAM sizes in GiB, sleep intervals) become `ℚ`; code that can raise
becomes `Option`.  Loops become structural recursions on an explicit
iteration count, mirroring `range(...)`.
-/

namespace STMPO

/-- Embedding of `split_ranges(start, end, parts)`
(`stmpo_wrapper.py` lines 121-138), loop body: for each
`i in range(parts)`, `span = base + (1 if i < rem else 0)`, emit
`(cur, cur + span - 1)` and advance `cur` by `span`.  The counter `k`
is the number of remaining iterations, `i` the Python loop index. -/
def srLoop (base rem : Int) : Nat → Int → Int → List (Int × Int)
  | 0, _, _ => []
  | Nat.succ k, i, cur =>
    (cur, cur + (base + (if i < rem then 1 else 0)) - 1) ::
      srLoop base rem k (i + 1) (cur + (base + (if i < rem then 1 else 0)))

/-- Embedding of `split_ranges` (`stmpo_wrapper.py` lines 121-138).
`total = end - start + 1`; `parts` is clamped below by 1 then above by
`total`; `base = total // parts`, `rem = total % parts` (Python floor
division / remainder, hence `fdiv` / `fmod`).  When the clamped
`parts` is `0` (which happens exactly when `total = 0`) the Python
code raises `ZeroDivisionError` at `total // parts`; that outcome is
`none`.  `range(parts)` runs `parts.toNat` iterations. -/
def split_ranges (start «end» parts : Int) : Option (List (Int × Int)) :=
  let total := «end» - start + 1
  let parts0 := if parts ≤ 0 then 1 else parts
  let parts1 := if total < parts0 then total else parts0
  if parts1 = 0 then none
  else some (srLoop (total.fdiv parts1) (total.fmod parts1) parts1.toNat 0 start)

/-- Total frame span emitted by `srLoop` over `k` iterations starting
at loop index `i` (sum of the per-iteration `span` values). -/
def spanSum (base rem i : Int) : Nat → Int
  | 0 => 0
  | Nat.succ k => (base + (if i < rem then 1 else 0)) + spanSum base rem (i + 1) k

/-- The property claimed for the Range Splitter: on `s ≤ e`, `n ≥ 1` it
returns exactly `min n (e-s+1)` inclusive subranges whose union is
`{s,…,e}`, pairwise disjoint (strictly ordered), with the first
`(e-s+1) mod min n (e-s+1)` subranges one frame larger than the rest. -/
def C1Prop (s e n : Int) : Prop :=
  ∃ L, split_ranges s e n = some L ∧
    L.length = (min n (e - s + 1)).toNat ∧
    (∀ f : Int, (∃ p ∈ L, p.1 ≤ f ∧ f ≤ p.2) ↔ (s ≤ f ∧ f ≤ e)) ∧
    L.Pairwise (fun p q => p.2 < q.1) ∧
    (∀ (j : Nat) (p : Int × Int), L[j]? = some p →
      p.2 - p.1 + 1 = (e - s + 1).fdiv (min n (e - s + 1)) +
        (if (j : Int) < (e - s + 1).fmod (min n (e - s + 1)) then 1 else 0)) ∧
    (∀ (j₁ j₂ : Nat) (p₁ p₂ : Int × Int), L[j₁]? = some p₁ → L[j₂]? = some p₂ →
      (j₁ : Int) < (e - s + 1).fmod (min n (e - s + 1)) →
      (e - s + 1).fmod (min n (e - s + 1)) ≤ (j₂ : Int) →
      p₁.2 - p₁.1 + 1 = (p₂.2 - p₂.1 + 1) + 1)

/-- Outcome of the range phase of `main`: `crash` is an uncaught
`ZeroDivisionError`, after which the interpreter prints the traceback
and then blocks forever joining the non-daemon offloader thread
(started at line 750 and never signalled on this path), so the process
never exits — in particular it exits with neither 0, 1 nor 2;
`proceed` carries the non-empty range list handed to the spawn loop. -/
inductive RangePhase where
  | crash
  | proceed (ranges : List (Int × Int))
deriving DecidableEq

/-- Embedding of the range phase of `main` (`stmpo_wrapper.py` lines
699-701, 754, 775): `concurrency = min(requested, end - start + 1)`;
`ranges = split_ranges(start, end, concurrency)`; then the spawn-plan
log at line 775 computes `math.ceil((end - start + 1) / len(ranges))`
before the spawn loop.  A `ZeroDivisionError` is raised either inside
`split_ranges` (line 129, when `total = 0`) or at line 775 (division
by `len(ranges) = 0` when `split_ranges` returned `[]`); both are
uncaught, giving `crash`.  With a non-empty list the run proceeds to
spawn. -/
def range_phase (s e requested : Int) : RangePhase :=
  match split_ranges s e (min requested (e - s + 1)) with
  | none => RangePhase.crash
  | some [] => RangePhase.crash
  | some (r :: rs) => RangePhase.proceed (r :: rs)

/-- Per-iteration slice width in `build_affinity_blocks`
(`stmpo_wrapper.py` lines 269-271): `span = base + (1 if i < rem
else 0); if span <= 0: span = 1`. -/
def babSpan (base rem i : Nat) : Nat :=
  if base + (if i < rem then 1 else 0) = 0 then 1
  else base + (if i < rem then 1 else 0)

/-- Slice selection (`stmpo_wrapper.py` lines 272-274):
`slice_cpus = all_cpus[cur:cur + span]; if not slice_cpus:
slice_cpus = [all_cpus[-1]]`.  `all_cpus` is non-empty at every call
site (guarded at line 259), so `getLast?.getD 0` is its last element. -/
def babSlice (all : List Int) (cur span : Nat) : List Int :=
  if (all.drop cur).take span = [] then [all.getLast?.getD 0]
  else (all.drop cur).take span

/-- The `for i in range(concurrency)` loop of `build_affinity_blocks`
(`stmpo_wrapper.py` lines 268-276); `k` counts remaining iterations. -/
def babLoop (all : List Int) (base rem : Nat) : Nat → Nat → Nat → List (List Int)
  | 0, _, _ => []
  | Nat.succ k, i, cur =>
    babSlice all cur (babSpan base rem i) ::
      babLoop all base rem k (i + 1) (cur + babSpan base rem i)

/-- Embedding of `build_affinity_blocks(concurrency, pools)`
(`stmpo_wrapper.py` lines 251-277).  Python `total_cpus //
concurrency` and `%` on non-negative ints is `Nat` division/modulo
after `concurrency.toNat` (positive by the guard). -/
def build_affinity_blocks (concurrency : Int) (pools : List (List Int)) : List (List Int) :=
  if concurrency ≤ 0 ∨ pools = [] then []
  else if pools.flatten = [] then []
  else
    babLoop pools.flatten (pools.flatten.length / concurrency.toNat)
      (pools.flatten.length % concurrency.toNat) concurrency.toNat 0 0

/-- Sum of slice widths over `k` iterations from loop index `i`
(without the empty-slice clamp, i.e. assuming `base ≥ 1`). -/
def nspanSum (base rem i : Nat) : Nat → Nat
  | 0 => 0
  | Nat.succ k => (base + (if i < rem then 1 else 0)) + nspanSum base rem (i + 1) k

/-- The property claimed for the Affinity Planner: `N` blocks, all
non-empty; with `N ≤ T` the first `T mod N` blocks carry one extra CPU
over the base `T / N` width and the blocks are a permutation of the
flattened pool list; with `N > T` the flattened pool list is a
sub-multiset of the blocks (over-subscription repeats the last CPU). -/
def C4Prop (N : Int) (pools : List (List Int)) : Prop :=
  (build_affinity_blocks N pools).length = N.toNat ∧
  (∀ b ∈ build_affinity_blocks N pools, b ≠ []) ∧
  (N.toNat ≤ pools.flatten.length →
    (build_affinity_blocks N pools).flatten.Perm pools.flatten ∧
    ∀ (j : Nat) (b : List Int), (build_affinity_blocks N pools)[j]? = some b →
      b.length = pools.flatten.length / N.toNat +
        (if j < pools.flatten.length % N.toNat then 1 else 0)) ∧
  (pools.flatten.length < N.toNat →
    List.Subperm pools.flatten (build_affinity_blocks N pools).flatten)

/-- The command-line arguments of `stmpo_wrapper.py` as built by
`parse_args` (lines 605-659), after argparse type conversion.  Python
floats carrying configuration quantities are modelled as `ℚ`.
`output_is_pattern` (line 657) is parsed but never read by the rest of
the program. -/
structure Args where
  project : String
  comp : Option String
  rqindex : Option Int
  output : String
  start : Int
  «end» : Int
  concurrency : Int
  max_concurrency : Int
  spawn_delay : ℚ
  child_grace_sec : ℚ
  kill_on_fail : Bool
  env_file : Option String
  log_file : Option String
  ram_per_process_gb : ℚ
  mfr_threads : Int
  disable_mfr : Bool
  aerender_path : String
  numa_map : String
  disable_affinity : Bool
  rs_template : Option String
  om_template : Option String
  output_is_pattern : Bool
deriving DecidableEq

/-- Host-environment inputs read by the orchestrator:
`psutil.cpu_count(logical=True)` (`None` when unknown),
`psutil.cpu_count(logical=False)` (read by no code path; the formula in the spec refers to it), total RAM in GiB (`0` both when the host
reports zero and when reading `psutil.virtual_memory()` raises, as in
`auto_concurrency` lines 288-292), and the job UUID fragment used for
the scratch directory name. -/
structure Env where
  logical_raw : Option Nat
  physical_raw : Option Nat
  total_ram_gb : ℚ
  job_uuid : String
deriving DecidableEq

/-- Embedding of `psutil.cpu_count(logical=True) or 8` (line 285): `None` and `0`
both fall back to 8. -/
def pyLogical (env : Env) : Int :=
  match env.logical_raw with
  | none => 8
  | some 0 => 8
  | some (Nat.succ k) => ((k : Nat) + 1 : Nat)

/-- Spec-side physical CPU count with "fallback = logical". -/
def pyPhysical (env : Env) : Int :=
  match env.physical_raw with
  | none => pyLogical env
  | some 0 => pyLogical env
  | some (Nat.succ k) => ((k : Nat) + 1 : Nat)

/-- Lines 294-308 of `auto_concurrency`: per-process RAM budget defaulted
to 32 when the hint is unset/non-positive, then
`usable_ram_gb = max(1.0, total_ram_gb * 0.8)` and
`max_by_ram = max(1, int(usable_ram_gb // ram_per_proc_gb))`;
when RAM is unavailable, `max_by_ram = logical`. -/
def max_by_ram (args : Args) (env : Env) : Int :=
  if 0 < env.total_ram_gb then
    max 1 ⌊(max 1 (env.total_ram_gb * (4 / 5))) /
      (if args.ram_per_process_gb ≤ 0 then 32 else args.ram_per_process_gb)⌋
  else pyLogical env

/-- Lines 311-322 of `auto_concurrency`: thread target per process —
`max(8, mfr_threads or 8)` with MFR disabled, `max(16, mfr_threads or
16)` with MFR enabled. -/
def target_threads_per_proc (args : Args) : Int :=
  if args.disable_mfr then max 8 (if args.mfr_threads = 0 then 8 else args.mfr_threads)
  else max 16 (if args.mfr_threads = 0 then 16 else args.mfr_threads)

/-- Line 324 of `auto_concurrency`: `max(1, logical // target_threads_per_proc)`. -/
def base_by_threads (args : Args) (env : Env) : Int :=
  max 1 ((pyLogical env).fdiv (target_threads_per_proc args))

/-- Embedding of `auto_concurrency(args, logger)` (`stmpo_wrapper.py`
lines 280-354): combine the RAM and thread limits, clamp by
`max_concurrency` when positive, and clamp to at least 1. -/
def auto_concurrency (args : Args) (env : Env) : Int :=
  let base := min (max_by_ram args env) (base_by_threads args env)
  let base1 := if 0 < args.max_concurrency then min base args.max_concurrency else base
  if base1 < 1 then 1 else base1

/-- Line 699 of `main`: the hint is used verbatim when `≥ 1`, otherwise
`auto_concurrency` decides. -/
def requested_concurrency (args : Args) (env : Env) : Int :=
  if 1 ≤ args.concurrency then args.concurrency else auto_concurrency args env

/-- Lines 700-701 of `main`: clamp by the frame count of the task. -/
def concurrency_of (args : Args) (env : Env) : Int :=
  min (requested_concurrency args env) (args.«end» - args.start + 1)

/-- The amended planner bounds: the chosen `N` always lies in
`[1, e-s+1]`; the `max_concurrency` cap additionally bounds `N` only
in auto mode (no hint `≥ 1`) and only when the cap is positive. -/
def C3AmendedProp (args : Args) (env : Env) : Prop :=
  1 ≤ concurrency_of args env ∧
  concurrency_of args env ≤ args.«end» - args.start + 1 ∧
  (args.concurrency < 1 → 1 ≤ args.max_concurrency →
    concurrency_of args env ≤ args.max_concurrency)

/-- A sample host environment: 64 logical / 64 physical CPUs, RAM
reading unavailable. -/
def sampleEnv : Env :=
  { logical_raw := some 64, physical_raw := some 64, total_ram_gb := 0,
    job_uuid := "cafebabe" }

/-- A job with concurrency hint 100 and `max_concurrency` 24 over
frames `[0, 999]`. -/
def hintArgs : Args :=
  { project := "proj.aep", comp := none, rqindex := some 1, output := "out.mov",
    start := 0, «end» := 999, concurrency := 100, max_concurrency := 24,
    spawn_delay := 2, child_grace_sec := 10, kill_on_fail := true,
    env_file := none, log_file := none, ram_per_process_gb := 32,
    mfr_threads := 16, disable_mfr := false, aerender_path := "aerender.exe",
    numa_map := "", disable_affinity := false, rs_template := none,
    om_template := none, output_is_pattern := false }

/-- The auto-concurrency formula asserted by the spec (§4.4, claim
C8), written from the words of the spec for refinement comparison:
`per = max(4, min(256, hint))`, `ram_cap = max(1, floor(ram /
(per · 1.25)))` with a conservative constant 4 when RAM is
unavailable, `cores_per_worker = 4` with MFR disabled else
`max(1, mfr_threads)`, `core_cap = max(1, physical //
cores_per_worker)`, and `N = max(1, min(ram_cap, core_cap,
max_concurrency))`. -/
def auto_concurrency_spec_formula (args : Args) (env : Env) : Int :=
  let per : ℚ := max 4 (min 256 args.ram_per_process_gb)
  let ram_cap : Int :=
    if 0 < env.total_ram_gb then max 1 ⌊env.total_ram_gb / (per * (5 / 4))⌋ else 4
  let cores_per_worker : Int := if args.disable_mfr then 4 else max 1 args.mfr_threads
  let core_cap : Int := max 1 ((pyPhysical env).fdiv cores_per_worker)
  max 1 (min ram_cap (min core_cap args.max_concurrency))

/-- The formula the code actually computes (amended C8), written as a
single expression from the words of the amended claim: the RAM cap uses
80% of total RAM (at least 1 GiB) over the per-process budget
(defaulted to 32 when the hint is non-positive) and falls back to the
LOGICAL CPU count when RAM is unavailable; the threads-per-worker
target is `max(8, hint or 8)` with MFR disabled and `max(16, hint or
16)` with MFR enabled, divided into the LOGICAL count; the
`max_concurrency` cap applies only when positive; the result is
clamped to at least 1. -/
def auto_concurrency_amended (args : Args) (env : Env) : Int :=
  let logical : Int := pyLogical env
  let per : ℚ := if 0 < args.ram_per_process_gb then args.ram_per_process_gb else 32
  let ram_cap : Int :=
    if 0 < env.total_ram_gb then max 1 ⌊(max 1 ((4 / 5) * env.total_ram_gb)) / per⌋
    else logical
  let threads_per_worker : Int :=
    if args.disable_mfr then (if args.mfr_threads = 0 then 8 else max 8 args.mfr_threads)
    else (if args.mfr_threads = 0 then 16 else max 16 args.mfr_threads)
  let core_cap : Int := max 1 (logical.fdiv threads_per_worker)
  max 1 (if 0 < args.max_concurrency then min (min ram_cap core_cap) args.max_concurrency
    else min ram_cap core_cap)

/-- A job in auto mode (hint 0), MFR disabled with no thread hint, cap
24. -/
def autoArgs : Args :=
  { hintArgs with concurrency := 0, disable_mfr := true, mfr_threads := 0 }

/-- Constant `LOCAL_SCRATCH_ROOT` (`stmpo_wrapper.py` line 47). -/
def LOCAL_SCRATCH_ROOT : String := "C:\\Deadline\\InterimRenderFrames"

/-- Split a character list at any of the given separator characters
(kernel-computable model of the string splitting the embedding
needs). -/
def splitOnSeps (seps : List Char) : List Char → List Char → List (List Char)
  | [], acc => [acc.reverse]
  | c :: cs, acc =>
    if seps.contains c then acc.reverse :: splitOnSeps seps cs []
    else splitOnSeps seps cs (c :: acc)

/-- Model of `pathlib.Path(p).name`: the last path component after
splitting on both separators. -/
def pyBasename (p : String) : String :=
  String.mk ((splitOnSeps ['/', '\\'] p.data []).getLast?.getD [])

/-- Lines 681-695 of `main`: `local_output_path = local_scratch_dir /
output_filename` with `local_scratch_dir = LOCAL_SCRATCH_ROOT /
("job_" + uuid8)`. -/
def local_output_path (args : Args) (env : Env) : String :=
  LOCAL_SCRATCH_ROOT ++ "\\job_" ++ env.job_uuid ++ "\\" ++ pyBasename args.output

/-- Embedding of `build_aerender_cmd(args, s, e, output_path)`
(`stmpo_wrapper.py` lines 569-598).  Python truthiness: `None` and the
empty string are falsy for `args.comp` and the templates; `rqindex`
is tested with `is not None`. -/
def build_aerender_cmd (args : Args) (s e : Int) (output_path : String) : List String :=
  [args.aerender_path, "-project", args.project, "-output", output_path,
    "-sound", "OFF", "-s", toString s, "-e", toString e]
  ++ (match args.comp with
      | some c => if c = "" then [] else ["-comp", c]
      | none => [])
  ++ (match args.rqindex with
      | some i => ["-rqindex", toString i]
      | none => [])
  ++ (match args.rs_template with
      | some t => if t = "" then [] else ["-RStemplate", t]
      | none => [])
  ++ (match args.om_template with
      | some t => if t = "" then [] else ["-OMtemplate", t]
      | none => [])
  ++ ["-mfr", if args.disable_mfr then "OFF" else "ON", "100"]

/-- The commands of the children that `main` spawns (lines 754 and
807-848): one `build_aerender_cmd` per subrange of `split_ranges`,
all rendering to the scratch-local output path; `none` when
`split_ranges` raises. -/
def spawn_plan (args : Args) (env : Env) : Option (List (List String)) :=
  (split_ranges args.start args.«end» (concurrency_of args env)).map
    (fun rs => rs.map (fun r => build_aerender_cmd args r.1 r.2 (local_output_path args env)))

/-- Modelled from the spec: the video-container extension test of
§4.5 (`{mov, mp4, mxf, avi, mkv}` without a sequence pattern), which
the spec attributes to the orchestrator.  No such check exists
anywhere in `stmpo_wrapper.py`; this definition only states the
premise of claim C2. -/
def has_video_ext (name : String) : Bool :=
  match (splitOnSeps ['.'] name.data []).getLast? with
  | some ext =>
    ["mov".data, "mp4".data, "mxf".data, "avi".data, "mkv".data].contains ext
  | none => false

/-- The amended C2 behaviour: regardless of the extension of the output basename, a job with `s ≤ e` and concurrency hint `N ≥ 1` proceeds
to spawn `min(N, e-s+1) ≥ 1` children. -/
def C2AmendedProp (args : Args) (env : Env) : Prop :=
  ∃ cmds, spawn_plan args env = some cmds ∧
    cmds.length = (min args.concurrency (args.«end» - args.start + 1)).toNat ∧
    cmds ≠ []

/-- The observable behaviour of the planning phase of the orchestrator:
chosen concurrency, spawned command lines, range-phase outcome, and
affinity blocks. -/
structure Observables where
  conc : Int
  plan : Option (List (List String))
  phase : RangePhase
  blocks : List (List Int)
deriving DecidableEq

/-- All planning-phase observables of `main` as a function of the
arguments, the host environment, and the parsed NUMA pools. -/
def observables (args : Args) (env : Env) (pools : List (List Int)) : Observables :=
  { conc := concurrency_of args env
    plan := spawn_plan args env
    phase := range_phase args.start args.«end» (requested_concurrency args env)
    blocks := build_affinity_blocks (concurrency_of args env) pools }

/-- A job over frames `[0, 100]` with concurrency 4 and the video
output `out.mov`. -/
def videoArgs : Args := { hintArgs with concurrency := 4, «end» := 100 }

/-- Outcome of the spawn loop (`stmpo_wrapper.py` lines 807-853):
either all children spawned and the run enters the monitor loop, or a
spawn raised, `cleanup_resources()` terminated every already-spawned
child, and `main` called `sys.exit(1)`. -/
inductive RunPhase where
  | monitor (children : List (Int × Int))
  | exited (code : Int) (cleaned : List (Int × Int))
deriving DecidableEq

/-- The spawn loop over the remaining ranges: `ok i` tells whether the
`i`-th `subprocess.Popen` succeeds; `acc` holds already-spawned
children (in reverse).  On the first failure the code logs, runs
`cleanup_resources()` (terminating the children spawned so far) and
exits 1 (lines 850-853). -/
def spawnGo (ok : Nat → Bool) : List (Int × Int) → Nat → List (Int × Int) → RunPhase
  | [], _, acc => RunPhase.monitor acc.reverse
  | r :: rs, i, acc =>
    if ok i then spawnGo ok rs (i + 1) (r :: acc)
    else RunPhase.exited 1 acc.reverse

/-- The whole spawn phase for a range list. -/
def spawn_children (ranges : List (Int × Int)) (ok : Nat → Bool) : RunPhase :=
  spawnGo ok ranges 0 []

/-- Two subranges covering `[0, 99]`. -/
def twoRanges : List (Int × Int) := [(0, 49), (50, 99)]

/-- Spawn outcome: only the first `Popen` succeeds. -/
def okFirstOnly : Nat → Bool := fun i => i == 0

/-- Three subranges covering `[0, 99]`. -/
def threeRanges : List (Int × Int) := [(0, 33), (34, 66), (67, 99)]

/-- Python `str.lower()` at character-list level. -/
def pyToLower (s : String) : List Char := s.data.map Char.toLower

/-- Character-list prefix test (kernel-computable). -/
def chPre : List Char → List Char → Bool
  | [], _ => true
  | _ :: _, [] => false
  | a :: as, b :: bs => a == b && chPre as bs

/-- Character-list substring test, embedding the Python test `needle in hay`. -/
def containsSub : List Char → List Char → Bool
  | needle, [] => chPre needle []
  | needle, c :: cs => chPre needle (c :: cs) || containsSub needle cs

/-- Substring test against an already-lowercased character list. -/
def hasSub (needle : String) (hay : List Char) : Bool := containsSub needle.data hay

/-- The supervisor state the log-drain step mutates
(`stmpo_wrapper.py` lines 858-912): pids with observed render
progress, per-pid failure reasons, pids handed to
`psutil.Process(pid).terminate()`, and the last log line per pid
(`last_log_time` is wall-clock and not modelled). -/
structure SupState where
  render_progress : List Nat
  child_failures : List (Nat × String)
  terminated : List Nat
  last_log_line : List (Nat × String)
deriving DecidableEq

/-- Python dict lookup on an association list. -/
def lookupA (l : List (Nat × String)) (p : Nat) : Option String :=
  (l.find? (fun q => q.1 == p)).map (fun q => q.2)

/-- Python dict update on an association list. -/
def setA (l : List (Nat × String)) (p : Nat) (v : String) : List (Nat × String) :=
  (p, v) :: l.filter (fun q => q.1 != p)

/-- The fast-drain body (`stmpo_wrapper.py` lines 904-912): log the
line and update the last-log bookkeeping — and nothing else. -/
def drain_line (st : SupState) (pid : Nat) (line : String) : SupState :=
  { st with last_log_line := setA st.last_log_line pid line }

/-- Render-progress signatures (line 881). -/
def progress_sig (lower : List Char) : Bool :=
  hasSub "progress:" lower || hasSub "starting composition" lower ||
    hasSub "finished composition" lower

/-- Error-14 signatures (line 884). -/
def error14_sig (lower : List Char) : Bool :=
  hasSub "error code: 14" lower || hasSub "unexpected error occurred while exporting" lower

/-- Missing-rendered-frame signature (line 894). -/
def missing_frame_sig (lower : List Char) : Bool :=
  hasSub "could not be found" lower && hasSub ".tif" lower

/-- Lines 880-882: record render progress for the pid. -/
def inspect_progress (st : SupState) (pid : Nat) (lower : List Char) : SupState :=
  if st.render_progress.contains pid then st
  else if progress_sig lower then { st with render_progress := pid :: st.render_progress }
  else st

/-- Lines 883-902: when the pid has no recorded failure, test the two
failure signatures; each match records the reason and terminates that
worker (a line carrying both signatures overwrites the reason with the
missing-frame one, mirroring the two sequential `if`s). -/
def inspect_failures (st : SupState) (pid : Nat) (lower : List Char) : SupState :=
  if (lookupA st.child_failures pid).isNone then
    (fun st3 =>
      if missing_frame_sig lower then
        { st3 with
          child_failures := setA st3.child_failures pid "Rendered frame missing on disk",
          terminated := pid :: st3.terminated }
      else st3)
    (if error14_sig lower then
      { st with
        child_failures := setA st.child_failures pid "After Effects Error Code 14 detected",
        terminated := pid :: st.terminated }
    else st)
  else st

/-- Lines 874-902: full processing of the one line obtained by the
blocking `out_q.get`. -/
def inspect_line (st : SupState) (pid : Nat) (line : String) : SupState :=
  inspect_failures (inspect_progress (drain_line st pid line) pid (pyToLower line))
    pid (pyToLower line)

/-- Queue consumption of one supervisor iteration (lines 870-912): the
blocking `get` yields the first line, fully inspected; the
`get_nowait` drain consumes the rest with `drain_line` only. -/
def supervisor_drain (st : SupState) (q : List (Nat × String)) : SupState :=
  match q with
  | [] => st
  | (pid, line) :: rest =>
    rest.foldl (fun s pl => drain_line s pl.1 pl.2) (inspect_line st pid line)

/-- The amended per-line failure-signature behaviour: for the line
obtained by the blocking wait — and only that line — an Error-14
signature on a pid with no recorded failure marks exactly that worker
failed with reason "After Effects Error Code 14 detected" and
terminates exactly it; lines consumed by the fast drain leave the
failure table and termination set untouched. -/
def C6AmendedProp (st : SupState) (pid : Nat) (line : String)
    (rest : List (Nat × String)) : Prop :=
  lookupA (supervisor_drain st ((pid, line) :: rest)).child_failures pid =
    some "After Effects Error Code 14 detected" ∧
  (supervisor_drain st ((pid, line) :: rest)).terminated = pid :: st.terminated ∧
  ∀ q : Nat, q ≠ pid →
    lookupA (supervisor_drain st ((pid, line) :: rest)).child_failures q =
      lookupA st.child_failures q

/-- The supervisor state at job start: nothing failed, nothing
terminated. -/
def emptySup : SupState :=
  { render_progress := [], child_failures := [], terminated := [], last_log_line := [] }

/-- Constant `OFFLOAD_SCAN_INTERVAL` (`stmpo_wrapper.py` line 60). -/
def OFFLOAD_SCAN_INTERVAL : ℚ := 2.5

/-- Constant `OFFLOAD_BURST_LIMIT` (line 61). -/
def OFFLOAD_BURST_LIMIT : Nat := 5

/-- Constant `OFFLOAD_IDLE_INTERVAL` (line 62). -/
def OFFLOAD_IDLE_INTERVAL : ℚ := 5.0

/-- What one move attempt does in `process_files`
(`stmpo_wrapper.py` lines 521-538): `shutil.copy2 + os.remove`
succeed, raise `PermissionError`, or raise some other exception. -/
inductive MoveRes where
  | success
  | permission
  | other
deriving DecidableEq

/-- The `for attempt in range(3)` retry loop (lines 521-538): success
breaks with the file moved; `PermissionError` sleeps 0.5 s and
retries while attempts remain, else logs and gives up; any other
exception breaks.  Returns (moved, attempts used, total sleep). -/
def attemptLoop (outcome : Nat → MoveRes) : Nat → Nat → Bool × Nat × ℚ
  | i, 0 => (false, i, 0)
  | i, Nat.succ fuel =>
    match outcome i with
    | MoveRes.success => (true, i + 1, 0)
    | MoveRes.other => (false, i + 1, 0)
    | MoveRes.permission =>
      if fuel = 0 then (false, i + 1, 0)
      else
        let r := attemptLoop outcome (i + 1) fuel
        (r.1, r.2.1, r.2.2 + 1 / 2)

/-- A scratch-directory entry as `process_files` sees it:
`local_file.is_file()`, the `is_file_stable` rename probe, and the
per-attempt move outcomes. -/
structure FileEnt where
  isFile : Bool
  stable : Bool
  outcome : Nat → MoveRes

/-- The scan loop of `process_files` (lines 507-539): stop at
`max_files` moves, skip non-files and unstable files, move the rest
through the retry loop. -/
def pfGo : List FileEnt → Nat → Nat → Nat
  | [], moved, _ => moved
  | f :: rest, moved, maxFiles =>
    if maxFiles ≤ moved then moved
    else if f.isFile = false then pfGo rest moved maxFiles
    else if f.stable = false then pfGo rest moved maxFiles
    else pfGo rest (moved + (if (attemptLoop f.outcome 0 3).1 then 1 else 0)) maxFiles

/-- Embedding of `process_files(max_files)` returning the number of files moved. -/
def process_files (files : List FileEnt) (maxFiles : Nat) : Nat :=
  pfGo files 0 maxFiles

/-- The scan-loop wait (lines 541-548): `OFFLOAD_SCAN_INTERVAL` after
a non-empty burst, `OFFLOAD_IDLE_INTERVAL` otherwise. -/
def offload_wait (moved : Nat) : ℚ :=
  if moved ≠ 0 then OFFLOAD_SCAN_INTERVAL else OFFLOAD_IDLE_INTERVAL

/-- One iteration of the main loop of the offloader: a burst-limited scan
and the resulting wait. -/
def offload_scan_step (files : List FileEnt) : Nat × ℚ :=
  (process_files files OFFLOAD_BURST_LIMIT,
    offload_wait (process_files files OFFLOAD_BURST_LIMIT))

theorem spanSum_closed (base rem i : Int) (k : Nat) :
    spanSum base rem i k = k * base + max 0 (min (rem - i) (k : Int)) := by
  induction k generalizing i with
  | zero => simp [spanSum]
  | succ k ih =>
    rw [spanSum, ih (i + 1)]
    have hk : ((k + 1 : Nat) : Int) * base = (k : Int) * base + base := by
      push_cast
      ring
    rw [hk]
    rcases lt_or_le i rem with h | h
    · simp only [if_pos h]
      push_cast
      omega
    · simp only [if_neg (not_lt.mpr h)]
      push_cast
      omega

theorem spanSum_nonneg (base rem i : Int) (k : Nat) (hbase : 0 ≤ base) :
    0 ≤ spanSum base rem i k := by
  rw [spanSum_closed]
  have : 0 ≤ (k : Int) * base := mul_nonneg (by positivity) hbase
  omega

theorem srLoop_length (base rem : Int) (k : Nat) (i cur : Int) :
    (srLoop base rem k i cur).length = k := by
  induction k generalizing i cur with
  | zero => rfl
  | succ k ih => simp [srLoop, ih]

/-- Every frame in `[cur, cur + spanSum - 1]` is covered by exactly the
emitted subranges, and nothing outside is. -/
theorem srLoop_cover (base rem : Int) (hbase : 1 ≤ base) (k : Nat) :
    ∀ (i cur f : Int),
      (∃ p ∈ srLoop base rem k i cur, p.1 ≤ f ∧ f ≤ p.2) ↔
        (cur ≤ f ∧ f ≤ cur + spanSum base rem i k - 1) := by
  induction k with
  | zero =>
    intro i cur f
    simp [srLoop, spanSum]
    omega
  | succ k ih =>
    intro i cur f
    have htail := ih (i + 1) (cur + (base + (if i < rem then 1 else 0))) f
    have hnn : 0 ≤ spanSum base rem (i + 1) k := spanSum_nonneg _ _ _ _ (by omega)
    constructor
    · rintro ⟨p, hp, hf1, hf2⟩
      rcases List.mem_cons.mp hp with h | h
      · subst h
        simp only [spanSum]
        rcases lt_or_le i rem with hir | hir <;> simp only [if_pos, if_neg, hir] at hf2 ⊢ <;> omega
      · have := htail.mp ⟨p, h, hf1, hf2⟩
        simp only [spanSum]
        omega
    · rintro ⟨h1, h2⟩
      simp only [spanSum] at h2
      by_cases hhead : f ≤ cur + (base + (if i < rem then 1 else 0)) - 1
      · exact ⟨_, List.mem_cons_self _ _, h1, hhead⟩
      · have := htail.mpr ⟨by omega, by omega⟩
        obtain ⟨p, hp, hf⟩ := this
        exact ⟨p, List.mem_cons_of_mem _ hp, hf⟩

/-- Every subrange emitted by `srLoop` starts at or after `cur`. -/
theorem srLoop_fst_ge (base rem : Int) (hbase : 1 ≤ base) (k : Nat) :
    ∀ (i cur : Int), ∀ p ∈ srLoop base rem k i cur, cur ≤ p.1 := by
  induction k with
  | zero => intro i cur p hp; simp [srLoop] at hp
  | succ k ih =>
    intro i cur p hp
    rcases List.mem_cons.mp hp with h | h
    · subst h; exact le_refl _
    · have := ih (i + 1) (cur + (base + (if i < rem then 1 else 0))) p h
      rcases lt_or_le i rem with hir | hir <;> simp only [if_pos, if_neg, hir] at this <;> omega

/-- Emitted subranges are strictly ordered: each ends before the next begins. -/
theorem srLoop_pairwise (base rem : Int) (hbase : 1 ≤ base) (k : Nat) :
    ∀ (i cur : Int), (srLoop base rem k i cur).Pairwise (fun p q => p.2 < q.1) := by
  induction k with
  | zero => intro i cur; simp [srLoop]
  | succ k ih =>
    intro i cur
    refine List.pairwise_cons.mpr ⟨?_, ih (i + 1) _⟩
    intro q hq
    have := srLoop_fst_ge base rem hbase k (i + 1) (cur + (base + (if i < rem then 1 else 0))) q hq
    rcases lt_or_le i rem with hir | hir <;> simp only [if_pos, if_neg, hir] at this ⊢ <;> omega

/-- Size (frame count) of the `j`-th emitted subrange. -/
theorem srLoop_size (base rem : Int) (k : Nat) :
    ∀ (i cur : Int) (j : Nat) (p : Int × Int),
      (srLoop base rem k i cur)[j]? = some p →
        p.2 - p.1 + 1 = base + (if (i + (j : Int)) < rem then 1 else 0) := by
  induction k with
  | zero => intro i cur j p hp; simp [srLoop] at hp
  | succ k ih =>
    intro i cur j p hp
    match j with
    | 0 =>
      simp only [srLoop, List.getElem?_cons_zero, Option.some.injEq] at hp
      subst hp
      simp only [Nat.cast_zero, add_zero]
      ring_nf
    | Nat.succ j =>
      simp only [srLoop, List.getElem?_cons_succ] at hp
      have := ih (i + 1) (cur + (base + (if i < rem then 1 else 0))) j p hp
      rw [this]
      have hcast : i + 1 + (j : Int) = i + ((j : Nat) + 1 : Nat) := by push_cast; ring
      rw [hcast]

theorem split_ranges_eq_of_valid (s e n : Int) (hse : s ≤ e) (hn : 1 ≤ n) :
    split_ranges s e n =
      some (srLoop ((e - s + 1).fdiv (min n (e - s + 1)))
        ((e - s + 1).fmod (min n (e - s + 1))) (min n (e - s + 1)).toNat 0 s) := by
  unfold split_ranges
  have h0 : ¬ (n ≤ 0) := by omega
  simp only [if_neg h0]
  have hmin : (if e - s + 1 < n then e - s + 1 else n) = min n (e - s + 1) := by
    rcases le_or_lt n (e - s + 1) with h | h
    · rw [if_neg (by omega), min_eq_left h]
    · rw [if_pos h, min_eq_right (by omega)]
  rw [hmin, if_neg (by omega)]

theorem spanSum_total (total q : Int) (h1 : 1 ≤ q) (_h2 : q ≤ total) :
    spanSum (total.fdiv q) (total.fmod q) 0 q.toNat = total := by
  have hq0 : (0 : Int) ≤ q := by omega
  have hrem0 : 0 ≤ total.fmod q := by
    rw [Int.fmod_eq_emod _ hq0]
    exact Int.emod_nonneg _ (by omega)
  have hremlt : total.fmod q < q := by
    rw [Int.fmod_eq_emod _ hq0]
    exact Int.emod_lt_of_pos _ (by omega)
  rw [spanSum_closed]
  rw [Int.toNat_of_nonneg hq0]
  have : max 0 (min (total.fmod q - 0) q) = total.fmod q := by omega
  rw [this]
  nlinarith [Int.fdiv_add_fmod total q]

theorem fdiv_ge_one (total q : Int) (h1 : 1 ≤ q) (h2 : q ≤ total) :
    1 ≤ total.fdiv q := by
  rw [Int.fdiv_eq_ediv _ (by omega)]
  rw [Int.le_ediv_iff_mul_le (by omega)]
  omega

/-- C1: For every pair of integers `s ≤ e` and every `n ≥ 1`,
`split_ranges` returns exactly `min n (e-s+1)` inclusive subranges whose
union equals `{s,…,e}`, pairwise disjoint, with the first
`(e-s+1) mod min n (e-s+1)` subranges having exactly one more frame
than the rest. -/
theorem split_ranges_spec (s e n : Int) (hse : s ≤ e) (hn : 1 ≤ n) : C1Prop s e n := by
  have htot : 1 ≤ e - s + 1 := by omega
  have hq1 : 1 ≤ min n (e - s + 1) := le_min hn htot
  have hqle : min n (e - s + 1) ≤ e - s + 1 := min_le_right _ _
  set q := min n (e - s + 1) with hqdef
  set base := (e - s + 1).fdiv q with hbdef
  set rem := (e - s + 1).fmod q with hrdef
  have hbase : 1 ≤ base := fdiv_ge_one _ _ hq1 hqle
  have hrem0 : 0 ≤ rem := by
    rw [hrdef, Int.fmod_eq_emod _ (by omega)]
    exact Int.emod_nonneg _ (by omega)
  refine ⟨srLoop base rem q.toNat 0 s, split_ranges_eq_of_valid s e n hse hn, ?_, ?_, ?_, ?_, ?_⟩
  · exact srLoop_length _ _ _ _ _
  · intro f
    rw [srLoop_cover base rem hbase q.toNat 0 s f]
    have := spanSum_total (e - s + 1) q hq1 hqle
    rw [← hbdef, ← hrdef] at this
    rw [this]
    omega
  · exact srLoop_pairwise _ _ hbase _ _ _
  · intro j p hp
    have := srLoop_size base rem q.toNat 0 s j p hp
    simpa using this
  · intro j₁ j₂ p₁ p₂ hp₁ hp₂ hlt hge
    rw [← hqdef, ← hrdef] at hlt hge
    have h1 := srLoop_size base rem q.toNat 0 s j₁ p₁ hp₁
    have h2 := srLoop_size base rem q.toNat 0 s j₂ p₂ hp₂
    rw [zero_add] at h1 h2
    rw [if_pos hlt] at h1
    rw [if_neg (by omega)] at h2
    omega

/-- Witness for C1 at Scenario 1 of the spec, job `[0,9]` with `n = 2`. -/
theorem split_ranges_spec_witness : ((0 : Int) ≤ 9 ∧ (1 : Int) ≤ 2) ∧ C1Prop 0 9 2 :=
  ⟨by decide, split_ranges_spec 0 9 2 (by decide) (by decide)⟩

theorem split_ranges_none (s e n : Int) (h : split_ranges s e n = none) : e < s := by
  simp only [split_ranges] at h
  split_ifs at h with h1 h2 h3 h4 h5 h6 <;> omega

theorem range_phase_invalid (s e r : Int) (hr : 1 ≤ r) (h : e < s) :
    range_phase s e r = RangePhase.crash := by
  have hmin : min r (e - s + 1) = e - s + 1 := min_eq_right (by omega)
  unfold range_phase
  rw [hmin]
  by_cases h0 : e - s + 1 = 0
  · have hn : split_ranges s e (e - s + 1) = none := by
      simp only [split_ranges]
      rw [if_pos (show e - s + 1 ≤ 0 by omega), if_pos (show e - s + 1 < 1 by omega),
        if_pos h0]
    rw [hn]
  · have hs2 : split_ranges s e (e - s + 1) = some [] := by
      simp only [split_ranges]
      rw [if_pos (show e - s + 1 ≤ 0 by omega), if_pos (show e - s + 1 < 1 by omega),
        if_neg h0]
      have ht : (e - s + 1).toNat = 0 := by omega
      rw [ht]
      rfl
    rw [hs2]

/-- C7 (amended): `split_ranges` fails (raises) only when `e < s` —
in fact only at `e = s - 1`; but for `e < s` the orchestrator neither
reports invalid input with exit code 2 nor reports success: it raises
an uncaught `ZeroDivisionError` before spawning any child (inside
`split_ranges` at `e = s - 1`, at the spawn-plan division by
`len(ranges) = 0` on line 775 for `e < s - 1`) and then, the
non-daemon offloader thread never being signalled, hangs without
exiting at all. -/
theorem invalid_range_spec :
    (∀ s e n : Int, split_ranges s e n = none → e < s) ∧
    (∀ s e r : Int, 1 ≤ r → e < s → range_phase s e r = RangePhase.crash) :=
  ⟨split_ranges_none, range_phase_invalid⟩

/-- Witness for C7 (amended): the job `[5, 2]` with requested
concurrency 3 crashes in the range phase. -/
theorem invalid_range_spec_witness : range_phase 5 2 3 = RangePhase.crash :=
  invalid_range_spec.2 5 2 3 (by decide) (by decide)

/-- Counterexample for C7 as stated: both jobs with `e < s` — `[0,-1]`
(`ZeroDivisionError` inside `split_ranges`, line 129) and `[0,-2]`
(`ZeroDivisionError` at the spawn-plan log, line 775) — crash with an
uncaught exception and hang; the orchestrator never reports invalid
input with exit code 2. -/
theorem invalid_range_exit_counterexample :
    range_phase 0 (-1) 4 = RangePhase.crash ∧
    range_phase 0 (-2) 4 = RangePhase.crash := by
  refine ⟨by decide, by decide⟩

theorem nspanSum_closed (base rem : Nat) (k : Nat) :
    ∀ i, nspanSum base rem i k = k * base + min (rem - i) k := by
  induction k with
  | zero => intro i; simp [nspanSum]
  | succ k ih =>
    intro i
    rw [nspanSum, ih (i + 1)]
    have h : (k + 1) * base = k * base + base := by ring
    rw [h]
    rcases Nat.lt_or_ge i rem with hh | hh
    · rw [if_pos hh]; omega
    · rw [if_neg (by omega)]; omega

theorem babSpan_of_base_pos (base rem i : Nat) (h : 1 ≤ base) :
    babSpan base rem i = base + (if i < rem then 1 else 0) := by
  unfold babSpan
  rw [if_neg (by split <;> omega)]

theorem babLoop_length (all : List Int) (base rem : Nat) (k : Nat) :
    ∀ i cur, (babLoop all base rem k i cur).length = k := by
  induction k with
  | zero => intro i cur; rfl
  | succ k ih => intro i cur; simp [babLoop, ih]

theorem babSlice_ne_nil (all : List Int) (cur span : Nat) : babSlice all cur span ≠ [] := by
  unfold babSlice
  split <;> simp_all

theorem babLoop_blocks_ne_nil (all : List Int) (base rem : Nat) (k : Nat) :
    ∀ i cur, ∀ b ∈ babLoop all base rem k i cur, b ≠ [] := by
  induction k with
  | zero => intro i cur b hb; simp [babLoop] at hb
  | succ k ih =>
    intro i cur b hb
    rcases List.mem_cons.mp hb with h | h
    · subst h; exact babSlice_ne_nil _ _ _
    · exact ih _ _ b h

theorem babLoop_join (all : List Int) (base rem : Nat) (hbase : 1 ≤ base) (k : Nat) :
    ∀ i cur, cur + nspanSum base rem i k = all.length →
      (babLoop all base rem k i cur).flatten = all.drop cur := by
  induction k with
  | zero =>
    intro i cur h
    rw [nspanSum] at h
    rw [babLoop, List.drop_eq_nil_of_le (show all.length <= cur by omega)]
    rfl
  | succ k ih =>
    intro i cur h
    rw [nspanSum] at h
    rw [babLoop, List.flatten_cons]
    rw [babSpan_of_base_pos _ _ _ hbase]
    have hspan1 : 1 ≤ base + (if i < rem then 1 else 0) := by omega
    have hcur : cur + (base + (if i < rem then 1 else 0)) ≤ all.length := by
      have := Nat.zero_le (nspanSum base rem (i + 1) k)
      omega
    have hslice : (all.drop cur).take (base + (if i < rem then 1 else 0)) ≠ [] := by
      have hlen : ((all.drop cur).take (base + (if i < rem then 1 else 0))).length =
          base + (if i < rem then 1 else 0) := by
        rw [List.length_take, List.length_drop]
        omega
      intro hnil
      rw [hnil] at hlen
      simp at hlen
      omega
    rw [babSlice, if_neg hslice]
    rw [ih (i + 1) (cur + (base + (if i < rem then 1 else 0))) (by omega)]
    rw [← List.drop_drop]
    exact List.take_append_drop _ _

theorem babLoop_sizes (all : List Int) (base rem : Nat) (hbase : 1 ≤ base) (k : Nat) :
    ∀ i cur, cur + nspanSum base rem i k = all.length →
      ∀ (j : Nat) (b : List Int), (babLoop all base rem k i cur)[j]? = some b →
        b.length = base + (if i + j < rem then 1 else 0) := by
  induction k with
  | zero => intro i cur _ j b hb; simp [babLoop] at hb
  | succ k ih =>
    intro i cur h j b hb
    rw [nspanSum] at h
    rw [babLoop] at hb
    match j with
    | 0 =>
      simp only [List.getElem?_cons_zero, Option.some.injEq] at hb
      subst hb
      rw [babSpan_of_base_pos _ _ _ hbase, Nat.add_zero]
      have hcur : cur + (base + (if i < rem then 1 else 0)) ≤ all.length := by
        have := Nat.zero_le (nspanSum base rem (i + 1) k)
        omega
      have hlen : ((all.drop cur).take (base + (if i < rem then 1 else 0))).length =
          base + (if i < rem then 1 else 0) := by
        rw [List.length_take, List.length_drop]
        omega
      have hslice : (all.drop cur).take (base + (if i < rem then 1 else 0)) ≠ [] := by
        intro hnil
        rw [hnil] at hlen
        simp at hlen
        omega
      rw [babSlice, if_neg hslice, hlen]
    | Nat.succ j =>
      simp only [List.getElem?_cons_succ] at hb
      rw [babSpan_of_base_pos _ _ _ hbase] at hb
      have := ih (i + 1) (cur + (base + (if i < rem then 1 else 0))) (by omega) j b hb
      rw [this]
      have harith : i + 1 + j = i + (j + 1) := by omega
      rw [harith]

theorem babSpan_base_zero (rem i : Nat) : babSpan 0 rem i = 1 := by
  unfold babSpan
  rcases Nat.lt_or_ge i rem with hh | hh
  · simp [hh]
  · simp [Nat.not_lt.mpr hh]

theorem babLoop_oversub (all : List Int) (k : Nat) :
    ∀ i, all.length ≤ i + k →
      List.Sublist (all.drop i) (babLoop all 0 all.length k i i).flatten := by
  induction k with
  | zero =>
    intro i h
    rw [List.drop_eq_nil_of_le (by omega)]
    exact List.nil_sublist _
  | succ k ih =>
    intro i h
    rw [babLoop, List.flatten_cons, babSpan_base_zero]
    rcases Nat.lt_or_ge i all.length with hi | hi
    · have hslice : (all.drop i).take 1 ≠ [] := by
        intro hnil
        have := congrArg List.length hnil
        rw [List.length_take, List.length_drop] at this
        simp at this
        omega
      rw [babSlice, if_neg hslice]
      have hdecomp : all.drop i = (all.drop i).take 1 ++ all.drop (i + 1) := by
        have h1 : (all.drop i).drop 1 = all.drop (i + 1) := by
          rw [List.drop_drop, Nat.add_comm]
        rw [← h1, List.take_append_drop]
      have hsub : List.Sublist ((all.drop i).take 1 ++ all.drop (i + 1))
          ((all.drop i).take 1 ++ (babLoop all 0 all.length k (i + 1) (i + 1)).flatten) :=
        List.Sublist.append_left (ih (i + 1) (by omega)) _
      rw [← hdecomp] at hsub
      exact hsub
    · rw [List.drop_eq_nil_of_le (by omega)]
      exact List.nil_sublist _

/-- C4: for every concurrency `N ≥ 1` and non-empty list of non-empty
CPU pools, `build_affinity_blocks` returns exactly `N` non-empty
blocks; when `N ≤ T` the first `T mod N` blocks have `⌈T/N⌉` CPUs and
the rest `⌊T/N⌋`, and the blocks concatenate to a permutation of the
flattened pools; when `N > T` they contain the flattened pools as a
sub-multiset. -/
theorem build_affinity_blocks_spec (N : Int) (pools : List (List Int))
    (hN : 1 ≤ N) (hp : pools ≠ []) (hne : ∀ p ∈ pools, p ≠ []) : C4Prop N pools := by
  have hjoin : pools.flatten ≠ [] := by
    match pools, hp with
    | p :: rest, _ =>
      have hpne : p ≠ [] := hne p (List.mem_cons_self _ _)
      simp only [List.flatten]
      intro hnil
      exact hpne (List.append_eq_nil.mp hnil).1
  have hn1 : 1 ≤ N.toNat := by omega
  have hguard : ¬ (N ≤ 0 ∨ pools = []) := by
    push_neg
    exact ⟨by omega, hp⟩
  have hB : build_affinity_blocks N pools =
      babLoop pools.flatten (pools.flatten.length / N.toNat)
        (pools.flatten.length % N.toNat) N.toNat 0 0 := by
    unfold build_affinity_blocks
    rw [if_neg hguard, if_neg hjoin]
  refine ⟨?_, ?_, ?_, ?_⟩
  · rw [hB]; exact babLoop_length _ _ _ _ _ _
  · rw [hB]; exact babLoop_blocks_ne_nil _ _ _ _ _ _
  · intro hNT
    have hbase : 1 ≤ pools.flatten.length / N.toNat := by
      rw [Nat.one_le_div_iff (by omega)]
      exact hNT
    have hlen : 0 + nspanSum (pools.flatten.length / N.toNat)
        (pools.flatten.length % N.toNat) 0 N.toNat = pools.flatten.length := by
      rw [nspanSum_closed]
      have hmod : pools.flatten.length % N.toNat < N.toNat := Nat.mod_lt _ (by omega)
      have hdm := Nat.div_add_mod pools.flatten.length N.toNat
      omega
    constructor
    · rw [hB, babLoop_join _ _ _ hbase _ _ _ hlen, List.drop_zero]
    · intro j b hb
      rw [hB] at hb
      have := babLoop_sizes _ _ _ hbase _ _ _ hlen j b hb
      simpa using this
  · intro hTN
    have hd : pools.flatten.length / N.toNat = 0 := Nat.div_eq_of_lt hTN
    have hm : pools.flatten.length % N.toNat = pools.flatten.length := Nat.mod_eq_of_lt hTN
    rw [hB, hd, hm]
    have := babLoop_oversub pools.flatten N.toNat 0 (by omega)
    rw [List.drop_zero] at this
    exact this.subperm

/-- Witness for C4 at the Scenario 1 NUMA map of the spec: `N = 2`,
pools `[[0,1,2,3]]` (blocks `[0,1]` and `[2,3]`). -/
theorem build_affinity_blocks_spec_witness :
    (((1 : Int) ≤ 2 ∧ [[0, 1, 2, 3]] ≠ ([] : List (List Int))) ∧
      ∀ p ∈ [[(0 : Int), 1, 2, 3]], p ≠ []) ∧ C4Prop 2 [[0, 1, 2, 3]] :=
  ⟨⟨⟨by decide, by decide⟩, by decide⟩,
    build_affinity_blocks_spec 2 [[0, 1, 2, 3]] (by decide) (by decide) (by decide)⟩

theorem auto_concurrency_ge_one (args : Args) (env : Env) :
    1 ≤ auto_concurrency args env := by
  unfold auto_concurrency
  dsimp only
  split_ifs <;> omega

theorem auto_concurrency_le_cap (args : Args) (env : Env)
    (hcap : 1 ≤ args.max_concurrency) :
    auto_concurrency args env ≤ args.max_concurrency := by
  unfold auto_concurrency
  dsimp only
  rw [if_pos (show 0 < args.max_concurrency by omega)]
  split_ifs with h
  · omega
  · exact min_le_right _ _

theorem requested_concurrency_ge_one (args : Args) (env : Env) :
    1 ≤ requested_concurrency args env := by
  unfold requested_concurrency
  split_ifs with h
  · omega
  · exact auto_concurrency_ge_one args env

/-- C3 (amended): for every valid job (`s ≤ e`) the chosen concurrency
satisfies `1 ≤ N ≤ e-s+1`; the cap `max_concurrency` bounds `N` in
auto mode (when it is positive), but a concurrency hint `≥ 1` is NOT
clamped by the cap. -/
theorem concurrency_planner_bounds (args : Args) (env : Env)
    (hse : args.start ≤ args.«end») : C3AmendedProp args env := by
  refine ⟨?_, min_le_right _ _, ?_⟩
  · exact le_min (requested_concurrency_ge_one args env) (by omega)
  · intro hhint hcap
    have hreq : requested_concurrency args env = auto_concurrency args env := by
      unfold requested_concurrency
      rw [if_neg (by omega)]
    unfold concurrency_of
    rw [hreq]
    exact le_trans (min_le_left _ _) (auto_concurrency_le_cap args env hcap)

/-- Witness for C3 (amended) at the hinted job: `N = 100 ∈ [1, 1000]`. -/
theorem concurrency_planner_bounds_witness :
    ((0 : Int) ≤ 999) ∧ C3AmendedProp hintArgs sampleEnv :=
  ⟨by decide, concurrency_planner_bounds hintArgs sampleEnv (by decide)⟩

/-- Counterexample for C3 as stated: with hint 100, cap 24 and 1000
frames the planner chooses `N = 100`, violating the claimed bound
`N ≤ max(max_concurrency, 1) = 24`. -/
theorem concurrency_cap_counterexample :
    concurrency_of hintArgs sampleEnv = 100 ∧
    ¬ concurrency_of hintArgs sampleEnv ≤ max hintArgs.max_concurrency 1 := by
  constructor
  · decide
  · decide

/-- C8 (amended): `auto_concurrency` computes exactly the amended
formula, for every argument vector and host environment. -/
theorem auto_concurrency_refine (args : Args) (env : Env) :
    auto_concurrency args env = auto_concurrency_amended args env := by
  unfold auto_concurrency auto_concurrency_amended max_by_ram base_by_threads
    target_threads_per_proc
  dsimp only
  have hper : (if args.ram_per_process_gb ≤ 0 then (32 : ℚ) else args.ram_per_process_gb) =
      (if 0 < args.ram_per_process_gb then args.ram_per_process_gb else 32) := by
    split_ifs <;> first | rfl | linarith
  have hmul : env.total_ram_gb * (4 / 5) = (4 / 5) * env.total_ram_gb := mul_comm _ _
  have hthread8 : (max 8 (if args.mfr_threads = 0 then 8 else args.mfr_threads)) =
      (if args.mfr_threads = 0 then 8 else max 8 args.mfr_threads) := by
    split_ifs <;> omega
  have hthread16 : (max 16 (if args.mfr_threads = 0 then 16 else args.mfr_threads)) =
      (if args.mfr_threads = 0 then 16 else max 16 args.mfr_threads) := by
    split_ifs <;> omega
  rw [hper, hmul, hthread8, hthread16]
  split_ifs <;> omega

/-- Counterexample for C8 as stated: on a 64-logical/64-physical host
with RAM unavailable, MFR disabled, no thread hint and cap 24, the
code chooses 8 (RAM fallback = logical count 64, threads target 8,
`64 // 8 = 8`) while the formula of the spec yields 4 (RAM fallback
constant 4, 4 cores per worker). -/
theorem auto_concurrency_counterexample :
    auto_concurrency autoArgs sampleEnv = 8 ∧
    auto_concurrency_spec_formula autoArgs sampleEnv = 4 ∧
    auto_concurrency autoArgs sampleEnv ≠ auto_concurrency_spec_formula autoArgs sampleEnv := by
  refine ⟨by decide, by decide, by decide⟩

/-- C2 (amended): the orchestrator performs no video-extension
refusal — for every job with `s ≤ e` and hint `N ≥ 1`, whatever the
output name (video extension or not), it proceeds to spawn
`min(N, e-s+1) ≥ 1` children; no exit happens before the monitor
phase. -/
theorem no_video_refusal_spec (args : Args) (env : Env)
    (hse : args.start ≤ args.«end») (hc : 1 ≤ args.concurrency) : C2AmendedProp args env := by
  have htot : 1 ≤ args.«end» - args.start + 1 := by omega
  have hreq : requested_concurrency args env = args.concurrency := by
    unfold requested_concurrency
    rw [if_pos hc]
  have hconc : concurrency_of args env =
      min args.concurrency (args.«end» - args.start + 1) := by
    unfold concurrency_of
    rw [hreq]
  have hn1 : 1 ≤ concurrency_of args env := by
    rw [hconc]
    exact le_min hc htot
  have heq := split_ranges_eq_of_valid args.start args.«end» (concurrency_of args env) hse hn1
  obtain ⟨L, hLeq, hLlen⟩ :
      ∃ L, split_ranges args.start args.«end» (concurrency_of args env) = some L ∧
        L.length = (min (concurrency_of args env) (args.«end» - args.start + 1)).toNat :=
    ⟨_, heq, srLoop_length _ _ _ _ _⟩
  refine ⟨L.map (fun r => build_aerender_cmd args r.1 r.2 (local_output_path args env)),
    ?_, ?_, ?_⟩
  · unfold spawn_plan
    rw [hLeq]
    rfl
  · rw [List.length_map, hLlen, hconc]
    omega
  · intro hnil
    have hlen := congrArg List.length hnil
    rw [List.length_map, hLlen] at hlen
    simp only [List.length_nil] at hlen
    rw [hconc] at hlen
    omega

/-- Witness for C2 (amended) at the Scenario 2 job (output `out.mov`,
concurrency 4, frames `[0,100]`). -/
theorem no_video_refusal_spec_witness :
    ((0 : Int) ≤ 100 ∧ (1 : Int) ≤ 4) ∧ C2AmendedProp videoArgs sampleEnv :=
  ⟨by decide, no_video_refusal_spec videoArgs sampleEnv (by decide) (by decide)⟩

/-- Counterexample for C2 as stated: the Scenario 2 job (`out.mov`,
concurrency 4, frames `[0,100]`) is NOT refused — four children are
planned (not zero) and the range phase proceeds to the spawn loop
(no crash, no exit), so there is no immediate exit 2. -/
theorem video_refusal_counterexample :
    has_video_ext (pyBasename videoArgs.output) = true ∧
    (spawn_plan videoArgs sampleEnv).map List.length = some 4 ∧
    (spawn_plan videoArgs sampleEnv).map List.length ≠ some 0 ∧
    range_phase videoArgs.start videoArgs.«end»
      (requested_concurrency videoArgs sampleEnv) ≠ RangePhase.crash := by
  refine ⟨by decide, by decide, by decide, by decide⟩

/-- C10: `--output_is_pattern` is parsed but never consulted — every
planning-phase observable (chosen concurrency, spawned command lines,
range-phase outcome, affinity blocks) is identical with the flag set
or cleared. -/
theorem output_is_pattern_noninterference (args : Args) (env : Env)
    (pools : List (List Int)) (b : Bool) :
    observables { args with output_is_pattern := b } env pools =
      observables args env pools := rfl

theorem spawnGo_all_ok (ok : Nat → Bool) (rs : List (Int × Int)) :
    ∀ (i : Nat) (acc : List (Int × Int)),
      (∀ t, t < rs.length → ok (i + t) = true) →
      spawnGo ok rs i acc = RunPhase.monitor (acc.reverse ++ rs) := by
  induction rs with
  | nil => intro i acc _; simp [spawnGo]
  | cons r rest ih =>
    intro i acc h
    have h0 : ok i = true := by
      have := h 0 (by simp)
      simpa using this
    rw [spawnGo, if_pos h0, ih (i + 1) (r :: acc) (fun t ht => by
      have := h (t + 1) (by simp; omega)
      rwa [show i + 1 + t = i + (t + 1) by omega])]
    rw [List.reverse_cons, List.append_assoc]
    rfl

theorem spawnGo_fail (ok : Nat → Bool) (rs : List (Int × Int)) :
    ∀ (i : Nat) (acc : List (Int × Int)) (j : Nat), j < rs.length →
      (∀ t, t < j → ok (i + t) = true) → ok (i + j) = false →
      spawnGo ok rs i acc = RunPhase.exited 1 (acc.reverse ++ rs.take j) := by
  induction rs with
  | nil => intro i acc j hj; simp at hj
  | cons r rest ih =>
    intro i acc j hj hok hfail
    match j with
    | 0 =>
      have h0 : ok i = false := by simpa using hfail
      rw [spawnGo, if_neg (by simp [h0])]
      simp
    | Nat.succ j =>
      have h0 : ok i = true := by
        have := hok 0 (by omega)
        simpa using this
      rw [spawnGo, if_pos h0]
      rw [ih (i + 1) (r :: acc) j (by simpa using hj)
        (fun t ht => by
          have := hok (t + 1) (by omega)
          rwa [show i + 1 + t = i + (t + 1) by omega])
        (by rwa [show i + 1 + j = i + (j + 1) by omega])]
      rw [List.reverse_cons, List.append_assoc]
      rfl

/-- C5 (amended): the orchestrator enters the monitor loop only when
every spawn succeeds; on the first spawn failure — at whatever index,
even with children already running — it terminates the already-spawned
children via `cleanup_resources()` and exits 1. -/
theorem spawn_failure_spec :
    (∀ (ranges : List (Int × Int)) (ok : Nat → Bool),
      (∀ i, i < ranges.length → ok i = true) →
      spawn_children ranges ok = RunPhase.monitor ranges) ∧
    (∀ (ranges : List (Int × Int)) (ok : Nat → Bool) (j : Nat), j < ranges.length →
      (∀ i, i < j → ok i = true) → ok j = false →
      spawn_children ranges ok = RunPhase.exited 1 (ranges.take j)) := by
  constructor
  · intro ranges ok h
    unfold spawn_children
    rw [spawnGo_all_ok ok ranges 0 [] (fun t ht => by simpa using h t ht)]
    rfl
  · intro ranges ok j hj hok hfail
    unfold spawn_children
    rw [spawnGo_fail ok ranges 0 [] j hj (fun t ht => by simpa using hok t ht)
      (by simpa using hfail)]
    rfl

/-- Counterexample for C5 as stated: with ranges `[(0,49), (50,99)]`
and the second spawn failing after the first child was spawned, the
orchestrator exits 1 (terminating the spawned child) instead of
supervising the already-spawned worker to completion. -/
theorem spawn_failure_counterexample :
    spawn_children twoRanges okFirstOnly = RunPhase.exited 1 [(0, 49)] ∧
    spawn_children twoRanges okFirstOnly ≠ RunPhase.monitor twoRanges := by
  refine ⟨by decide, by decide⟩

/-- Witness for C5 (amended): the third of three spawns fails, so the
two spawned children are cleaned up and the run exits 1. -/
theorem spawn_failure_spec_witness :
    spawn_children threeRanges (fun i => decide (i < 2)) =
      RunPhase.exited 1 (threeRanges.take 2) :=
  spawn_failure_spec.2 threeRanges (fun i => decide (i < 2)) 2 (by decide)
    (fun i hi => by
      have h2 : i < 2 := hi
      simp [h2])
    (by decide)

theorem drain_fold_preserves (q : List (Nat × String)) :
    ∀ st : SupState,
      (q.foldl (fun s pl => drain_line s pl.1 pl.2) st).child_failures = st.child_failures ∧
      (q.foldl (fun s pl => drain_line s pl.1 pl.2) st).terminated = st.terminated := by
  induction q with
  | nil => intro st; exact ⟨rfl, rfl⟩
  | cons p rest ih =>
    intro st
    rw [List.foldl_cons]
    exact ih (drain_line st p.1 p.2)

theorem lookupA_setA_self (l : List (Nat × String)) (p : Nat) (v : String) :
    lookupA (setA l p v) p = some v := by
  simp [lookupA, setA, List.find?]

theorem find_filter_ne (l : List (Nat × String)) (p q : Nat) (h : p ≠ q) :
    (l.filter (fun r => r.1 != p)).find? (fun r => r.1 == q) =
      l.find? (fun r => r.1 == q) := by
  induction l with
  | nil => rfl
  | cons r rest ih =>
    by_cases hr : r.1 = p
    · have h1 : (r.1 != p) = false := by simp [hr]
      have h2 : (r.1 == q) = false := by
        rw [hr]
        exact beq_eq_false_iff_ne.mpr h
      rw [List.filter_cons, h1]
      simp only [Bool.false_eq_true, if_false]
      rw [ih, List.find?_cons, h2]
    · have h1 : (r.1 != p) = true := by simp [hr]
      rw [List.filter_cons, h1]
      simp only [if_true]
      rw [List.find?_cons, List.find?_cons]
      cases hq : (r.1 == q) with
      | false => exact ih
      | true => rfl

theorem lookupA_setA_ne (l : List (Nat × String)) (p q : Nat) (v : String) (h : p ≠ q) :
    lookupA (setA l p v) q = lookupA l q := by
  unfold lookupA setA
  rw [List.find?_cons]
  have hpq : ((p, v).1 == q) = false := beq_eq_false_iff_ne.mpr h
  rw [hpq]
  simp only [Bool.false_eq_true, if_false]
  rw [find_filter_ne l p q h]

theorem inspect_progress_preserves (st : SupState) (pid : Nat) (lower : List Char) :
    (inspect_progress st pid lower).child_failures = st.child_failures ∧
    (inspect_progress st pid lower).terminated = st.terminated := by
  unfold inspect_progress
  split_ifs <;> exact ⟨rfl, rfl⟩

/-- C6 (amended): only the line removed by the blocking `get` is
inspected for failure signatures; when it carries an Error-14
signature for a pid with no recorded failure (and not the
missing-frame signature, which would overwrite), that worker alone is
marked failed with reason "After Effects Error Code 14 detected" and
terminated; siblings and fast-drained lines are unaffected. -/
theorem log_signature_spec (st : SupState) (pid : Nat) (line : String)
    (rest : List (Nat × String))
    (hnew : lookupA st.child_failures pid = none)
    (hsig : error14_sig (pyToLower line) = true)
    (htif : missing_frame_sig (pyToLower line) = false) :
    C6AmendedProp st pid line rest := by
  have hst1 := inspect_progress_preserves (drain_line st pid line) pid (pyToLower line)
  have hst1cf : (inspect_progress (drain_line st pid line) pid (pyToLower line)).child_failures
      = st.child_failures := hst1.1
  have hst1t : (inspect_progress (drain_line st pid line) pid (pyToLower line)).terminated
      = st.terminated := hst1.2
  have hfe : inspect_failures (inspect_progress (drain_line st pid line) pid (pyToLower line))
      pid (pyToLower line) =
      { inspect_progress (drain_line st pid line) pid (pyToLower line) with
        child_failures :=
          setA (inspect_progress (drain_line st pid line) pid (pyToLower line)).child_failures
            pid "After Effects Error Code 14 detected",
        terminated :=
          pid :: (inspect_progress (drain_line st pid line) pid (pyToLower line)).terminated } := by
    unfold inspect_failures
    rw [hst1cf, hnew]
    simp only [Option.isNone_none, if_true]
    rw [if_pos hsig]
    simp only []
    rw [if_neg (show ¬ missing_frame_sig (pyToLower line) = true by simp [htif])]
  have hil : (inspect_line st pid line).child_failures =
      setA st.child_failures pid "After Effects Error Code 14 detected" ∧
      (inspect_line st pid line).terminated = pid :: st.terminated := by
    unfold inspect_line
    rw [hfe]
    exact ⟨by rw [hst1cf], by rw [hst1t]⟩
  have hfold := drain_fold_preserves rest (inspect_line st pid line)
  refine ⟨?_, ?_, ?_⟩
  · show lookupA (rest.foldl (fun s pl => drain_line s pl.1 pl.2)
      (inspect_line st pid line)).child_failures pid = _
    rw [hfold.1, hil.1]
    exact lookupA_setA_self _ _ _
  · show (rest.foldl (fun s pl => drain_line s pl.1 pl.2)
      (inspect_line st pid line)).terminated = _
    rw [hfold.2, hil.2]
  · intro q hq
    show lookupA (rest.foldl (fun s pl => drain_line s pl.1 pl.2)
      (inspect_line st pid line)).child_failures q = _
    rw [hfold.1, hil.1]
    exact lookupA_setA_ne _ _ _ _ (fun hpq => hq hpq.symm)

/-- Witness for C6 (amended): a blocking-wait line with the Error-14
signature marks and terminates exactly worker 7. -/
theorem log_signature_spec_witness :
    C6AmendedProp emptySup 7 "After Effects error: (error code: 14)" [(3, "hello")] :=
  log_signature_spec emptySup 7 "After Effects error: (error code: 14)" [(3, "hello")]
    (by decide) (by decide) (by decide)

/-- Counterexample for C6 as stated: a line containing
`error code: 14` that is consumed by the fast drain (second in the
queue) does NOT mark worker 2 failed and terminates nothing — the
drain loop skips signature inspection. -/
theorem drain_inspection_counterexample :
    lookupA (supervisor_drain emptySup
      [(1, "Launching After Effects"),
       (2, "After Effects error: error code: 14")]).child_failures 2 = none ∧
    (supervisor_drain emptySup
      [(1, "Launching After Effects"),
       (2, "After Effects error: error code: 14")]).terminated = [] := by
  refine ⟨by decide, by decide⟩

theorem pfGo_le (files : List FileEnt) :
    ∀ moved maxFiles, pfGo files moved maxFiles ≤ max moved maxFiles := by
  induction files with
  | nil => intro moved maxFiles; simp [pfGo]
  | cons f rest ih =>
    intro moved maxFiles
    rw [pfGo]
    by_cases h1 : maxFiles ≤ moved
    · rw [if_pos h1]
      omega
    rw [if_neg h1]
    by_cases h2 : f.isFile = false
    · rw [if_pos h2]
      exact ih moved maxFiles
    rw [if_neg h2]
    by_cases h3 : f.stable = false
    · rw [if_pos h3]
      exact ih moved maxFiles
    rw [if_neg h3]
    generalize hinc : (if (attemptLoop f.outcome 0 3).1 then 1 else 0) = inc
    have hinc1 : inc ≤ 1 := by
      rw [← hinc]
      split <;> omega
    have := ih (moved + inc) maxFiles
    omega

theorem attemptLoop_bounds (outcome : Nat → MoveRes) :
    (attemptLoop outcome 0 3).2.1 ≤ 3 ∧
    (attemptLoop outcome 0 3).2.2 = (((attemptLoop outcome 0 3).2.1 : ℚ) - 1) * (1 / 2) := by
  rcases h0 : outcome 0 with _ | _ | _ <;>
    rcases h1 : outcome 1 with _ | _ | _ <;>
      rcases h2 : outcome 2 with _ | _ | _ <;>
        simp [attemptLoop, h0, h1, h2] <;> norm_num

/-- C9: every scan pass moves at most `OFFLOAD_BURST_LIMIT = 5` files;
after a pass that moved at least one file the offloader waits
`OFFLOAD_SCAN_INTERVAL = 2.5 s`, otherwise `OFFLOAD_IDLE_INTERVAL =
5.0 s`; a `PermissionError` is retried with 0.5 s spacing and a file
is attempted at most 3 times per pass. -/
theorem offloader_spec :
    (∀ files : List FileEnt, (offload_scan_step files).1 ≤ 5) ∧
    (∀ files : List FileEnt,
      (offload_scan_step files).2 =
        if (offload_scan_step files).1 = 0 then 5 else 5 / 2) ∧
    (∀ outcome : Nat → MoveRes,
      (attemptLoop outcome 0 3).2.1 ≤ 3 ∧
      (attemptLoop outcome 0 3).2.2 =
        (((attemptLoop outcome 0 3).2.1 : ℚ) - 1) * (1 / 2)) := by
  refine ⟨?_, ?_, attemptLoop_bounds⟩
  · intro files
    have := pfGo_le files 0 OFFLOAD_BURST_LIMIT
    simpa [offload_scan_step, process_files, OFFLOAD_BURST_LIMIT] using this
  · intro files
    have hfst : (offload_scan_step files).1 = process_files files OFFLOAD_BURST_LIMIT := rfl
    have hsnd : (offload_scan_step files).2 =
        offload_wait (process_files files OFFLOAD_BURST_LIMIT) := rfl
    rw [hfst, hsnd]
    unfold offload_wait OFFLOAD_SCAN_INTERVAL OFFLOAD_IDLE_INTERVAL
    split_ifs with h1 h2
    · norm_num
    · norm_num
    · exact absurd (not_not.mp h1) h2

end STMPO

